import Mathlib

/-!
Shallow embedding of the DNS message decoder in src/main.rs.

The Rust code operates on a `BytePacketBuffer` (a 512-byte array plus a read
position) through fallible operations returning `Result`.  We model a byte as
a `Nat` (< 256 in any real packet), the buffer as a `List Nat` together with
the position, and every `&mut self` operation as a function returning the
`Except` result together with the updated buffer state (the state persists
even when an error is returned, exactly as a `&mut` borrow does).
-/

deriving instance DecidableEq for Except

/-- The error kinds raised by the decoder, one per distinct error string in
the source: "End of buffer" (read/get), "End of buffer exceeded" (get_range),
and "Limit of 5 jumps was exceeded" (read_q_name). -/
inductive DnsError where
  | endOfBuffer
  | endOfBufferExceeded
  | jumpLimitExceeded
deriving DecidableEq, Repr

/-- Embeds `pub struct BytePacketBuffer { pub buffer: [u8; 512], pub position: usize }` -/
structure BytePacketBuffer where
  buffer : List Nat
  position : Nat
deriving DecidableEq, Repr

/-- Sequencing of two fallible stateful computations: the embedding of the
`?` operator threading the `&mut BytePacketBuffer` through. -/
def dbind {α β : Type} (x : Except DnsError α × BytePacketBuffer)
    (f : α → BytePacketBuffer → Except DnsError β × BytePacketBuffer) :
    Except DnsError β × BytePacketBuffer :=
  match x with
  | (Except.error e, b) => (Except.error e, b)
  | (Except.ok a, b) => f a b

namespace BytePacketBuffer

/-- Embeds `fn pos(&self) -> usize` -/
def pos (b : BytePacketBuffer) : Nat := b.position

/-- Embeds `fn step(&mut self, steps: usize)` — advances the position, never fails. -/
def step (b : BytePacketBuffer) (steps : Nat) : Except DnsError Unit × BytePacketBuffer :=
  (Except.ok (), { b with position := b.position + steps })

/-- Embeds `fn seek(&mut self, pos: usize)` — sets the position, never fails. -/
def seek (b : BytePacketBuffer) (p : Nat) : Except DnsError Unit × BytePacketBuffer :=
  (Except.ok (), { b with position := p })

/-- Embeds `fn read(&mut self) -> Result<u8>` -/
def read (b : BytePacketBuffer) : Except DnsError Nat × BytePacketBuffer :=
  if 512 ≤ b.position then (Except.error DnsError.endOfBuffer, b)
  else (Except.ok (b.buffer.getD b.position 0), { b with position := b.position + 1 })

/-- Embeds `fn get(&mut self, pos: usize) -> Result<u8>` — does not move the position. -/
def get (b : BytePacketBuffer) (p : Nat) : Except DnsError Nat × BytePacketBuffer :=
  ((if 512 ≤ p then Except.error DnsError.endOfBuffer
    else Except.ok (b.buffer.getD p 0)), b)

/-- Embeds `fn get_range(&mut self, start: usize, length: usize) -> Result<&[u8]>`;
note the bound check in the source: `start + length >= 512`. -/
def get_range (b : BytePacketBuffer) (start length : Nat) :
    Except DnsError (List Nat) × BytePacketBuffer :=
  ((if 512 ≤ start + length then Except.error DnsError.endOfBufferExceeded
    else Except.ok ((b.buffer.drop start).take length)), b)

/-- Embeds `fn read_u16(&mut self) -> Result<u16>` — big endian. -/
def read_u16 (b : BytePacketBuffer) : Except DnsError Nat × BytePacketBuffer :=
  dbind b.read fun hi b =>
  dbind b.read fun lo b =>
  (Except.ok ((hi <<< 8) ||| lo), b)

/-- Embeds `fn read_u32(&mut self) -> Result<u32>` — big endian. -/
def read_u32 (b : BytePacketBuffer) : Except DnsError Nat × BytePacketBuffer :=
  dbind b.read fun b0 b =>
  dbind b.read fun b1 b =>
  dbind b.read fun b2 b =>
  dbind b.read fun b3 b =>
  (Except.ok ((b0 <<< 24) ||| (b1 <<< 16) ||| (b2 <<< 8) ||| b3), b)

end BytePacketBuffer

/-- Models one byte of `String::from_utf8_lossy` followed by `to_lowercase`:
an ASCII byte is mapped to its lowercased character, any non-ASCII byte to
the replacement character.  (The Rust call decodes UTF-8 sequences; on the
ASCII byte strings that DNS labels carry the two agree exactly.) -/
def lossyLowerChar (c : Nat) : Char :=
  if c < 128 then
    (if 65 ≤ c ∧ c ≤ 90 then Char.ofNat (c + 32) else Char.ofNat c)
  else Char.ofNat 0xFFFD

/-- Embeds `String::from_utf8_lossy(bytes).to_lowercase()` over a byte list. -/
def lowercaseString (bs : List Nat) : String := ⟨bs.map lossyLowerChar⟩

/-- Fuel for the `read_q_name` loop.  One loop iteration either performs a
jump (at most 6 succeed before the limit check fires) or consumes a label,
strictly increasing the working position, which every successful `get` keeps
below 512; hence fewer than 7 * 258 iterations are possible and fuel 2048 is
never exhausted. -/
def qnameFuel : Nat := 2048

/-- The loop body of `fn read_q_name(&mut self, outstring: &mut String)`,
with the loop state (working position `pos`, `jumped`, `jumps_performed`,
current `delimiter`, accumulated output) passed explicitly and the fixed
`max_jumps = 5` inlined. -/
def readQNameLoop : Nat → BytePacketBuffer → Nat → Bool → Nat → String → String →
    Except DnsError String × BytePacketBuffer
  | 0, b, _, _, _, _, _ => (Except.error DnsError.endOfBuffer, b)
  | fuel+1, b, p, jumped, jp, delim, out =>
    if jp > 5 then (Except.error DnsError.jumpLimitExceeded, b)
    else
      dbind (b.get p) fun len b =>
        if len &&& 0xC0 = 0xC0 then
          let b := if jumped then b else (b.seek (p + 2)).2
          dbind (b.get (p + 1)) fun len2 b =>
            readQNameLoop fuel b (((len ^^^ 0xC0) <<< 8) ||| len2) true (jp + 1) delim out
        else
          if len = 0 then
            (Except.ok out, if jumped then b else (b.seek (p + 1)).2)
          else
            dbind (b.get_range (p + 1) len) fun sb b =>
              readQNameLoop fuel b (p + 1 + len) jumped jp "."
                (out ++ delim ++ lowercaseString sb)

/-- Embeds `fn read_q_name(&mut self, outstring: &mut String)`: the domain-name
reader with pointer decompression; appends onto `outstring` and returns the
final string (the `&mut String` out-parameter). -/
def BytePacketBuffer.read_q_name (b : BytePacketBuffer) (outstring : String) :
    Except DnsError String × BytePacketBuffer :=
  readQNameLoop qnameFuel b b.position false 0 "" outstring

/-- Embeds `pub enum ResultCode` -/
inductive ResultCode where
  | NOERROR
  | FORMERR
  | SERVFAIL
  | NXDOMAIN
  | NOTIMP
  | REFUSED
deriving DecidableEq, Repr

/-- Embeds `ResultCode::from_num` -/
def ResultCode.from_num (num : Nat) : ResultCode :=
  match num with
  | 1 => ResultCode.FORMERR
  | 2 => ResultCode.SERVFAIL
  | 3 => ResultCode.NXDOMAIN
  | 4 => ResultCode.NOTIMP
  | 5 => ResultCode.REFUSED
  | _ => ResultCode.NOERROR

/-- Embeds `pub struct DnsHeader` -/
structure DnsHeader where
  id : Nat
  recursion_desired : Bool
  truncated_message : Bool
  authoritative_answer : Bool
  opcode : Nat
  response : Bool
  result_code : ResultCode
  checking_disabled : Bool
  authed_data : Bool
  z : Bool
  recursion_available : Bool
  questions : Nat
  answers : Nat
  authoritative_entries : Nat
  resource_entries : Nat
deriving DecidableEq, Repr

/-- Embeds `DnsHeader::new()` -/
def DnsHeader.new : DnsHeader :=
  { id := 0
    recursion_desired := false
    truncated_message := false
    authoritative_answer := false
    opcode := 0
    response := false
    result_code := ResultCode.NOERROR
    checking_disabled := false
    authed_data := false
    z := false
    recursion_available := false
    questions := 0
    answers := 0
    authoritative_entries := 0
    resource_entries := 0 }

/-- Embeds `DnsHeader::read(&mut self, buffer)` — the mutation of `self` is modelled
by returning the updated header. -/
def DnsHeader.read (self : DnsHeader) (buffer : BytePacketBuffer) :
    Except DnsError DnsHeader × BytePacketBuffer :=
  dbind buffer.read_u16 fun id buffer =>
  dbind buffer.read_u16 fun flags buffer =>
  let a := flags >>> 8
  let bl := flags &&& 0xFF
  dbind buffer.read_u16 fun questions buffer =>
  dbind buffer.read_u16 fun answers buffer =>
  dbind buffer.read_u16 fun authoritative_entries buffer =>
  dbind buffer.read_u16 fun resource_entries buffer =>
  (Except.ok
    { self with
      id := id
      recursion_desired := decide (a &&& (1 <<< 0) > 0)
      truncated_message := decide (a &&& (1 <<< 1) > 0)
      authoritative_answer := decide (a &&& (1 <<< 2) > 0)
      opcode := (a >>> 3) &&& 0x0F
      response := decide (a &&& (1 <<< 7) > 0)
      result_code := ResultCode.from_num (bl &&& 0x0F)
      checking_disabled := decide (bl &&& (1 <<< 4) > 0)
      authed_data := decide (bl &&& (1 <<< 5) > 0)
      z := decide (bl &&& (1 <<< 6) > 0)
      recursion_available := decide (bl &&& (1 <<< 7) > 0)
      questions := questions
      answers := answers
      authoritative_entries := authoritative_entries
      resource_entries := resource_entries }, buffer)

/-- Embeds `pub enum QueryType { UNKNOWN(u16), A }` -/
inductive QueryType where
  | UNKNOWN (x : Nat)
  | A
deriving DecidableEq, Repr

/-- Embeds `QueryType::to_num` -/
def QueryType.to_num : QueryType → Nat
  | QueryType.UNKNOWN x => x
  | QueryType.A => 1

/-- Embeds `QueryType::from_num` -/
def QueryType.from_num (num : Nat) : QueryType :=
  match num with
  | 1 => QueryType.A
  | _ => QueryType.UNKNOWN num

/-- Embeds `pub struct DnsQuestion` -/
structure DnsQuestion where
  name : String
  qtype : QueryType
deriving DecidableEq, Repr

/-- Embeds `DnsQuestion::new` -/
def DnsQuestion.new (name : String) (qtype : QueryType) : DnsQuestion :=
  { name := name, qtype := qtype }

/-- Embeds `DnsQuestion::read(&mut self, buffer)` — reads a name (appending onto the
current `self.name`, which `DnsPacket::from_buffer` initialises to `""`),
then the query type, then the discarded class. -/
def DnsQuestion.read (self : DnsQuestion) (buffer : BytePacketBuffer) :
    Except DnsError DnsQuestion × BytePacketBuffer :=
  dbind (buffer.read_q_name self.name) fun name buffer =>
  dbind buffer.read_u16 fun qt buffer =>
  dbind buffer.read_u16 fun _class buffer =>
  (Except.ok { self with name := name, qtype := QueryType.from_num qt }, buffer)

/-- Embeds `std::net::Ipv4Addr` built from four octets. -/
structure Ipv4Addr where
  o1 : Nat
  o2 : Nat
  o3 : Nat
  o4 : Nat
deriving DecidableEq, Repr

/-- Embeds `pub enum DnsRecord` -/
inductive DnsRecord where
  | UNKNOWN (domain : String) (qtype : Nat) (data_len : Nat) (ttl : Nat)
  | A (domain : String) (address : Ipv4Addr) (ttl : Nat)
deriving DecidableEq, Repr

/-- The domain-name text carried by a record (either variant). -/
def DnsRecord.domain : DnsRecord → String
  | DnsRecord.UNKNOWN d _ _ _ => d
  | DnsRecord.A d _ _ => d

/-- Embeds `DnsRecord::read(buffer)` — translated exactly as written: the source
declares `let mut domain = String::new();` and never fills it (no
`read_q_name` call is made) before reading the type code. -/
def DnsRecord.read (buffer : BytePacketBuffer) :
    Except DnsError DnsRecord × BytePacketBuffer :=
  let domain : String := ""
  dbind buffer.read_u16 fun qtype_number buffer =>
  let qtype := QueryType.from_num qtype_number
  dbind buffer.read_u16 fun _class buffer =>
  dbind buffer.read_u32 fun ttl buffer =>
  dbind buffer.read_u16 fun data_length buffer =>
  match qtype with
  | QueryType.A =>
      dbind buffer.read_u32 fun raw_address buffer =>
      (Except.ok (DnsRecord.A domain
        { o1 := (raw_address >>> 24) &&& 0xFF
          o2 := (raw_address >>> 16) &&& 0xFF
          o3 := (raw_address >>> 8) &&& 0xFF
          o4 := raw_address &&& 0xFF } ttl), buffer)
  | QueryType.UNKNOWN _ =>
      dbind (buffer.step data_length) fun _ buffer =>
      (Except.ok (DnsRecord.UNKNOWN domain qtype_number data_length ttl), buffer)

/-- Embeds `pub struct DnsPacket` -/
structure DnsPacket where
  header : DnsHeader
  questions : List DnsQuestion
  answers : List DnsRecord
  authorities : List DnsRecord
  resources : List DnsRecord
deriving DecidableEq, Repr

/-- The `for _ in 0..result.header.questions` loop of `from_buffer`. -/
def readQuestions : Nat → BytePacketBuffer →
    Except DnsError (List DnsQuestion) × BytePacketBuffer
  | 0, b => (Except.ok [], b)
  | n+1, b =>
    dbind ((DnsQuestion.new "" (QueryType.UNKNOWN 0)).read b) fun q b =>
    dbind (readQuestions n b) fun qs b =>
    (Except.ok (q :: qs), b)

/-- The record-reading loops of `from_buffer` (answers, authorities,
additional records all use `DnsRecord::read`). -/
def readRecords : Nat → BytePacketBuffer →
    Except DnsError (List DnsRecord) × BytePacketBuffer
  | 0, b => (Except.ok [], b)
  | n+1, b =>
    dbind (DnsRecord.read b) fun r b =>
    dbind (readRecords n b) fun rs b =>
    (Except.ok (r :: rs), b)

/-- Embeds `DnsPacket::from_buffer` — header first, then exactly the declared number
of questions, answers, authorities and additional records, in that order. -/
def DnsPacket.from_buffer (buffer : BytePacketBuffer) :
    Except DnsError DnsPacket × BytePacketBuffer :=
  dbind (DnsHeader.read DnsHeader.new buffer) fun header buffer =>
  dbind (readQuestions header.questions buffer) fun questions buffer =>
  dbind (readRecords header.answers buffer) fun answers buffer =>
  dbind (readRecords header.authoritative_entries buffer) fun authorities buffer =>
  dbind (readRecords header.resource_entries buffer) fun resources buffer =>
  (Except.ok
    { header := header
      questions := questions
      answers := answers
      authorities := authorities
      resources := resources }, buffer)

/-!  Specification-side vocabulary: wire encodings of label sequences and
pointer chains, used to state the domain-name properties. -/

/-- The wire encoding of a pointer-free domain name: each label prefixed by
its length byte, the whole terminated by a zero byte. -/
def encodeLabels : List (List Nat) → List Nat
  | [] => [0]
  | l :: rest => (l.length :: l) ++ encodeLabels rest

/-- The bytes `bytes` occur in `buf` starting at offset `p` (as observed by
the `get` of the buffer, that is through `getD` with default 0). -/
def containsAt (buf : List Nat) (p : Nat) (bytes : List Nat) : Prop :=
  ∀ i, i < bytes.length → buf.getD (p + i) 0 = bytes.getD i 0

instance (buf : List Nat) (p : Nat) (bytes : List Nat) : Decidable (containsAt buf p bytes) :=
  inferInstanceAs (Decidable (∀ i, i < bytes.length → buf.getD (p + i) 0 = bytes.getD i 0))

/-- Every label is 1 to 63 bytes long (a zero length byte is the terminator,
and 64 or more would collide with the compression tag bits). -/
def validLabels (labels : List (List Nat)) : Prop :=
  ∀ l ∈ labels, 1 ≤ l.length ∧ l.length ≤ 63

instance (labels : List (List Nat)) : Decidable (validLabels labels) :=
  inferInstanceAs (Decidable (∀ l ∈ labels, 1 ≤ l.length ∧ l.length ≤ 63))

/-- The output accumulation performed by the label branch of the loop:
append `delim`, then the lowercased label, then continue with delimiter ".". -/
def appendLabels : String → String → List (List Nat) → String
  | out, _, [] => out
  | out, d, l :: rest => appendLabels (out ++ d ++ lowercaseString l) "." rest

/-- The lowercased labels joined by a dot separator. -/
def dotJoinedLower : List (List Nat) → String
  | [] => ""
  | [l] => lowercaseString l
  | l :: rest => lowercaseString l ++ "." ++ dotJoinedLower rest

/-- The 14-bit offset encoded by the two pointer bytes at `p`, exactly as the
source computes it: `(((len as u16) ^ 0xC0) << 8) | len_second`. -/
def ptrTarget (buf : List Nat) (p : Nat) : Nat :=
  ((buf.getD p 0 ^^^ 0xC0) <<< 8) ||| buf.getD (p + 1) 0

/-- Offset reached from `p` after following `k` pointer jumps. -/
def chainTarget (buf : List Nat) : Nat → Nat → Nat
  | p, 0 => p
  | p, k+1 => chainTarget buf (ptrTarget buf p) k

/-- Starting at `p`, the next `k` name bytes form `k` consecutive compression
pointers (each with its two bytes in bounds and its top two tag bits set). -/
def isPtrChain (buf : List Nat) (p k : Nat) : Prop :=
  ∀ i, i < k →
    chainTarget buf p i + 1 < 512 ∧
    buf.getD (chainTarget buf p i) 0 &&& 0xC0 = 0xC0

instance (buf : List Nat) (p k : Nat) : Decidable (isPtrChain buf p k) :=
  inferInstanceAs (Decidable (∀ i, i < k →
    chainTarget buf p i + 1 < 512 ∧
    buf.getD (chainTarget buf p i) 0 &&& 0xC0 = 0xC0))

/-!  Concrete packets used as witnesses and counterexamples. -/

/-- A 512-byte message: header id 0x1314, flags 0x8180, counts 1/1/0/0; one
question for "g.co" (type A, class IN); one answer whose name is the
compression pointer 0xC00C back to offset 12, type A, class IN, TTL 300,
data length 4, data 8.8.8.8. -/
def pktBytes : List Nat :=
  [0x13, 0x14, 0x81, 0x80, 0, 1, 0, 1, 0, 0, 0, 0,
   1, 0x67, 2, 0x63, 0x6F, 0, 0, 1, 0, 1,
   0xC0, 12, 0, 1, 0, 1, 0, 0, 1, 0x2C, 0, 4, 8, 8, 8, 8] ++ List.replicate 474 0

/-- The header that decoding `pktBytes` produces. -/
def pktHdr : DnsHeader :=
  { id := 0x1314, recursion_desired := true, truncated_message := false,
    authoritative_answer := false, opcode := 0, response := true,
    result_code := ResultCode.NOERROR, checking_disabled := false,
    authed_data := false, z := false, recursion_available := true,
    questions := 1, answers := 1, authoritative_entries := 0, resource_entries := 0 }

/-- The packet the code actually decodes from `pktBytes`: because
`DnsRecord::read` never reads the record name, the pointer bytes of the answer, namely
0xC0 0x0C are consumed as the type field (0xC00C = 49164), the record comes
back as UNKNOWN with an empty domain, and the remaining fields are shifted. -/
def pktDecoded : DnsPacket :=
  { header := pktHdr
    questions := [{ name := "g.co", qtype := QueryType.A }]
    answers := [DnsRecord.UNKNOWN "" 49164 300 65536]
    authorities := []
    resources := [] }

/-- A buffer whose offset 0 holds a pointer to offset 12, where a chain of
five further pointers (12→14→16→18→20→22) leads to the label sequence "g".
Decoding at 12 needs exactly 5 jumps (allowed); decoding at 0 needs 6. -/
def chainBuf : List Nat :=
  [0xC0, 12, 0, 0, 0, 0, 0, 0, 0, 0, 0, 0,
   0xC0, 14, 0xC0, 16, 0xC0, 18, 0xC0, 20, 0xC0, 22,
   1, 0x67, 0] ++ List.replicate 487 0

/-- A buffer whose offset 0 holds a pointer straight to a plain label
sequence "g" at offset 12. -/
def ptrBuf : List Nat :=
  [0xC0, 12, 0, 0, 0, 0, 0, 0, 0, 0, 0, 0, 1, 0x67, 0] ++ List.replicate 497 0

/-- A buffer holding the two-label name "Ab" (one label, bytes 0x41 0x62)
at offset 0. -/
def labBuf : List Nat := [2, 0x41, 0x62, 0] ++ List.replicate 508 0

/-- A small buffer with three distinguished leading bytes. -/
def rngBuf : List Nat := [10, 20, 30] ++ List.replicate 509 0

/-- A resource record (as `DnsRecord::read` consumes it) with type code 28,
class 1, TTL 300 and declared data length 5, starting at offset 0. -/
def unkBuf : List Nat := [0, 28, 0, 1, 0, 0, 1, 0x2C, 0, 5] ++ List.replicate 502 0

/-- A header whose second flags byte has low nibble 5 (REFUSED). -/
def hdrBuf : List Nat := [0, 1, 0, 5, 0, 0, 0, 0, 0, 0, 0, 0] ++ List.replicate 500 0

/-- The header decoded from `hdrBuf`. -/
def hdrBufHeader : DnsHeader := { DnsHeader.new with id := 1, result_code := ResultCode.REFUSED }

/-!  Basic unfolding lemmas for the stateful operations. -/

theorem dbind_ok {α β : Type} (a : α) (b : BytePacketBuffer)
    (f : α → BytePacketBuffer → Except DnsError β × BytePacketBuffer) :
    dbind (Except.ok a, b) f = f a b := rfl

theorem dbind_error {α β : Type} (e : DnsError) (b : BytePacketBuffer)
    (f : α → BytePacketBuffer → Except DnsError β × BytePacketBuffer) :
    dbind (Except.error e, b) f = (Except.error e, b) := rfl

theorem dbind_get {β : Type} (b : BytePacketBuffer) (p : Nat)
    (f : Nat → BytePacketBuffer → Except DnsError β × BytePacketBuffer) :
    dbind (b.get p) f =
      if 512 ≤ p then (Except.error DnsError.endOfBuffer, b)
      else f (b.buffer.getD p 0) b := by
  by_cases h : 512 ≤ p <;> simp [BytePacketBuffer.get, dbind, h]

theorem dbind_get_range {β : Type} (b : BytePacketBuffer) (s l : Nat)
    (f : List Nat → BytePacketBuffer → Except DnsError β × BytePacketBuffer) :
    dbind (b.get_range s l) f =
      if 512 ≤ s + l then (Except.error DnsError.endOfBufferExceeded, b)
      else f ((b.buffer.drop s).take l) b := by
  by_cases h : 512 ≤ s + l <;> simp [BytePacketBuffer.get_range, dbind, h]

theorem dbind_read {β : Type} (b : BytePacketBuffer)
    (f : Nat → BytePacketBuffer → Except DnsError β × BytePacketBuffer) :
    dbind b.read f =
      if 512 ≤ b.position then (Except.error DnsError.endOfBuffer, b)
      else f (b.buffer.getD b.position 0) { b with position := b.position + 1 } := by
  by_cases h : 512 ≤ b.position <;> simp [BytePacketBuffer.read, dbind, h]

theorem seek_snd (b : BytePacketBuffer) (p : Nat) :
    (b.seek p).2 = { b with position := p } := rfl

/-!  Arithmetic and list helpers. -/

theorem and192_eq_zero {n : Nat} (h : n < 64) : n &&& 0xC0 = 0 := by
  have H : ∀ m, m < 64 → m &&& 0xC0 = 0 := by decide
  exact H n h

theorem encodeLabels_length_pos (ls : List (List Nat)) :
    1 ≤ (encodeLabels ls).length := by
  cases ls <;> simp [encodeLabels]

theorem length_le_encodeLabels (ls : List (List Nat)) :
    ls.length ≤ (encodeLabels ls).length := by
  induction ls with
  | nil => simp [encodeLabels]
  | cons l rest ih => simp [encodeLabels]; omega

theorem containsAt_cons (buf : List Nat) (p a : Nat) (l : List Nat) :
    containsAt buf p (a :: l) ↔ buf.getD p 0 = a ∧ containsAt buf (p + 1) l := by
  constructor
  · intro h
    refine ⟨by simpa using h 0 (by simp), fun i hi => ?_⟩
    have := h (i + 1) (by simpa using Nat.succ_lt_succ hi)
    simpa [Nat.add_comm, Nat.add_assoc, Nat.add_left_comm] using this
  · rintro ⟨h0, h1⟩ i hi
    cases i with
    | zero => simpa using h0
    | succ j =>
      have hj : j < l.length := by
        simp only [List.length_cons] at hi
        omega
      have := h1 j hj
      simpa [Nat.add_comm, Nat.add_assoc, Nat.add_left_comm] using this

theorem containsAt_nil (buf : List Nat) (p : Nat) : containsAt buf p [] := by
  intro i hi
  simp at hi

theorem containsAt_append (buf : List Nat) (p : Nat) (l₁ l₂ : List Nat) :
    containsAt buf p (l₁ ++ l₂) ↔
      containsAt buf p l₁ ∧ containsAt buf (p + l₁.length) l₂ := by
  induction l₁ generalizing p with
  | nil =>
    simp [containsAt_nil]
  | cons a t ih =>
    rw [List.cons_append, containsAt_cons, containsAt_cons, ih]
    constructor
    · rintro ⟨h0, h1, h2⟩
      exact ⟨⟨h0, h1⟩, by simpa [Nat.add_comm, Nat.add_assoc, Nat.add_left_comm] using h2⟩
    · rintro ⟨⟨h0, h1⟩, h2⟩
      exact ⟨h0, h1, by simpa [Nat.add_comm, Nat.add_assoc, Nat.add_left_comm] using h2⟩

theorem slice_eq_of_containsAt (buf : List Nat) :
    ∀ (ws : List Nat) (p : Nat), p + ws.length ≤ buf.length →
    containsAt buf p ws → (buf.drop p).take ws.length = ws := by
  intro ws
  induction ws with
  | nil => simp
  | cons w t ih =>
    intro p hb hc
    rw [containsAt_cons] at hc
    have hp : p < buf.length := by simp at hb; omega
    have hdrop : buf.drop p = buf[p] :: buf.drop (p + 1) :=
      List.drop_eq_getElem_cons hp
    rw [hdrop, List.length_cons, List.take_succ_cons]
    have hhead : buf[p] = w := by
      have := hc.1
      rwa [List.getD_eq_getElem buf 0 hp] at this
    rw [hhead, ih (p + 1) (by simp at hb ⊢; omega) hc.2]

/-!  String append helpers (String is a structure over List Char). -/

theorem strAppend_assoc (a b c : String) : a ++ b ++ c = a ++ (b ++ c) := by
  obtain ⟨la⟩ := a
  obtain ⟨lb⟩ := b
  obtain ⟨lc⟩ := c
  show String.mk (la ++ lb ++ lc) = String.mk (la ++ (lb ++ lc))
  rw [List.append_assoc]

theorem strEmpty_append (s : String) : "" ++ s = s := by
  obtain ⟨ls⟩ := s
  show String.mk ([] ++ ls) = String.mk ls
  rw [List.nil_append]

theorem appendLabels_eq_dotJoined :
    ∀ (ls : List (List Nat)) (out d : String), ls ≠ [] →
    appendLabels out d ls = out ++ d ++ dotJoinedLower ls := by
  intro ls
  induction ls with
  | nil => intro out d h; exact absurd rfl h
  | cons l rest ih =>
    intro out d _
    cases rest with
    | nil => rfl
    | cons r rs =>
      rw [show appendLabels out d (l :: r :: rs) =
            appendLabels (out ++ d ++ lowercaseString l) "." (r :: rs) from rfl]
      rw [ih (out ++ d ++ lowercaseString l) "." (by simp)]
      rw [show dotJoinedLower (l :: r :: rs) =
            lowercaseString l ++ "." ++ dotJoinedLower (r :: rs) from rfl]
      simp only [strAppend_assoc]

theorem appendLabels_empty (ls : List (List Nat)) :
    appendLabels "" "" ls = dotJoinedLower ls := by
  cases ls with
  | nil => rfl
  | cons l rest =>
    rw [appendLabels_eq_dotJoined (l :: rest) "" "" (by simp)]
    rw [show ("" : String) ++ "" = "" from rfl, strEmpty_append]

/-- Running the name loop over a pointer-free encoded label sequence: it
appends the lowercased dot-separated labels and, unless a jump already
happened, seeks just past the terminating zero byte. -/
theorem qname_labels_loop :
    ∀ (labels : List (List Nat)) (fuel : Nat) (b : BytePacketBuffer) (p : Nat)
      (jumped : Bool) (jp : Nat) (delim out : String),
    b.buffer.length = 512 → jp ≤ 5 → labels.length + 1 ≤ fuel → validLabels labels →
    containsAt b.buffer p (encodeLabels labels) →
    p + (encodeLabels labels).length ≤ 512 →
    readQNameLoop fuel b p jumped jp delim out =
      (Except.ok (appendLabels out delim labels),
       if jumped then b else { b with position := p + (encodeLabels labels).length }) := by
  intro labels
  induction labels with
  | nil =>
    intro fuel b p jumped jp delim out hlen hjp hfuel hval hcont hbound
    obtain ⟨f, rfl⟩ : ∃ f, fuel = f + 1 := ⟨fuel - 1, by omega⟩
    have hb1 : (encodeLabels ([] : List (List Nat))).length = 1 := by simp [encodeLabels]
    have h0 : b.buffer.getD p 0 = 0 := by
      have := hcont 0 (by simp [encodeLabels])
      simpa [encodeLabels] using this
    simp only [readQNameLoop, dbind_get]
    rw [if_neg (show ¬ jp > 5 by omega)]
    rw [if_neg (show ¬ 512 ≤ p by omega)]
    rw [h0]
    rw [if_neg (by decide : ¬ ((0 : Nat) &&& 0xC0 = 0xC0))]
    rw [if_pos rfl]
    simp [appendLabels, seek_snd, encodeLabels]
  | cons l rest ih =>
    intro fuel b p jumped jp delim out hlen hjp hfuel hval hcont hbound
    have hl : 1 ≤ l.length ∧ l.length ≤ 63 := hval l (by simp)
    have hrest : validLabels rest := fun x hx => hval x (by simp [hx])
    have hrpos := encodeLabels_length_pos rest
    have hencLen : (encodeLabels (l :: rest)).length
        = l.length + 1 + (encodeLabels rest).length := by
      simp [encodeLabels]
      omega
    obtain ⟨f, rfl⟩ : ∃ f, fuel = f + 1 := ⟨fuel - 1, by omega⟩
    have hcc : containsAt b.buffer p (l.length :: (l ++ encodeLabels rest)) := by
      simpa [encodeLabels] using hcont
    rw [containsAt_cons] at hcc
    obtain ⟨h0, hcc2⟩ := hcc
    rw [containsAt_append] at hcc2
    obtain ⟨hcontl, hcontr⟩ := hcc2
    have hc1 : ¬ (l.length &&& 0xC0 = 0xC0) := by
      rw [and192_eq_zero (show l.length < 64 by omega)]
      decide
    have hc3 : ¬ (512 ≤ p + 1 + l.length) := by omega
    simp only [readQNameLoop, dbind_get, dbind_get_range]
    rw [if_neg (show ¬ jp > 5 by omega)]
    rw [if_neg (show ¬ 512 ≤ p by omega)]
    rw [h0]
    rw [if_neg hc1]
    rw [if_neg (show ¬ l.length = 0 by omega)]
    rw [if_neg hc3]
    have hslice : (b.buffer.drop (p + 1)).take l.length = l := by
      apply slice_eq_of_containsAt
      · omega
      · exact hcontl
    rw [hslice]
    rw [ih f b (p + 1 + l.length) jumped jp "." (out ++ delim ++ lowercaseString l)
        hlen hjp (by simp only [List.length_cons] at hfuel; omega) hrest hcontr (by omega)]
    have hpos : p + 1 + l.length + (encodeLabels rest).length
        = p + (encodeLabels (l :: rest)).length := by omega
    rw [hpos]
    rfl

/-- The text produced by the name loop depends only on the buffer bytes, the
working position and the jump counter: it is unchanged by giving more fuel,
by lowering the initial jump counter, by the `jumped` flag, or by the real
cursor position. -/
theorem qname_loop_congr :
    ∀ (fuel₁ fuel₂ : Nat) (b₁ b₂ : BytePacketBuffer) (p : Nat) (j₁ j₂ : Bool)
      (jp₁ jp₂ : Nat) (d o t : String),
    b₁.buffer = b₂.buffer → fuel₁ ≤ fuel₂ → jp₂ ≤ jp₁ →
    (readQNameLoop fuel₁ b₁ p j₁ jp₁ d o).1 = Except.ok t →
    (readQNameLoop fuel₂ b₂ p j₂ jp₂ d o).1 = Except.ok t := by
  intro fuel₁
  induction fuel₁ with
  | zero =>
    intro fuel₂ b₁ b₂ p j₁ j₂ jp₁ jp₂ d o t hbuf hf hjp hok
    simp [readQNameLoop] at hok
  | succ f ih =>
    intro fuel₂ b₁ b₂ p j₁ j₂ jp₁ jp₂ d o t hbuf hf hjp hok
    obtain ⟨g, rfl⟩ : ∃ g, fuel₂ = g + 1 := ⟨fuel₂ - 1, by omega⟩
    simp only [readQNameLoop, dbind_get, dbind_get_range] at hok ⊢
    by_cases h5 : jp₁ > 5
    · rw [if_pos h5] at hok
      simp at hok
    rw [if_neg h5] at hok
    rw [if_neg (show ¬ jp₂ > 5 by omega)]
    by_cases h512 : 512 ≤ p
    · rw [if_pos h512] at hok
      simp at hok
    rw [if_neg h512] at hok
    rw [if_neg h512]
    rw [← hbuf]
    by_cases hc : b₁.buffer.getD p 0 &&& 0xC0 = 0xC0
    · rw [if_pos hc] at hok ⊢
      by_cases hp1 : 512 ≤ p + 1
      · rw [if_pos hp1] at hok
        simp at hok
      rw [if_neg hp1] at hok ⊢
      have hb1 : (if j₁ then b₁ else (b₁.seek (p + 2)).2).buffer = b₁.buffer := by
        cases j₁ <;> rfl
      have hb2 : (if j₂ then b₂ else (b₂.seek (p + 2)).2).buffer = b₂.buffer := by
        cases j₂ <;> rfl
      rw [hb1] at hok
      rw [hb2, ← hbuf]
      exact ih g _ _ _ true true (jp₁ + 1) (jp₂ + 1) d o t
        (by rw [hb1, hb2, hbuf]) (by omega) (by omega) hok
    · rw [if_neg hc] at hok ⊢
      by_cases hz : b₁.buffer.getD p 0 = 0
      · rw [if_pos hz] at hok
        rw [if_pos hz]
        simp only [Prod.fst] at hok ⊢
        exact hok
      · rw [if_neg hz] at hok
        rw [if_neg hz]
        by_cases hr : 512 ≤ p + 1 + b₁.buffer.getD p 0
        · rw [if_pos hr] at hok
          simp at hok
        rw [if_neg hr] at hok
        rw [if_neg hr]
        exact ih g b₁ b₂ _ j₁ j₂ jp₁ jp₂ "." _ t hbuf (by omega) hjp hok

/-- Once a jump has been performed the loop never touches the buffer state
again: with `jumped = true` the final buffer is the input buffer. -/
theorem qname_loop_jumped_state :
    ∀ (fuel : Nat) (b : BytePacketBuffer) (p jp : Nat) (d o : String),
    (readQNameLoop fuel b p true jp d o).2 = b := by
  intro fuel
  induction fuel with
  | zero =>
    intro b p jp d o
    rfl
  | succ f ih =>
    intro b p jp d o
    simp only [readQNameLoop, dbind_get, dbind_get_range, if_true]
    split
    · rfl
    split
    · rfl
    split
    · split
      · rfl
      · exact ih _ _ _ _ _
    · split
      · rfl
      · split
        · rfl
        · exact ih _ _ _ _ _

/-- The name loop never modifies the buffer bytes, only the position. -/
theorem qname_loop_buffer :
    ∀ (fuel : Nat) (b : BytePacketBuffer) (p : Nat) (j : Bool) (jp : Nat) (d o : String),
    (readQNameLoop fuel b p j jp d o).2.buffer = b.buffer := by
  intro fuel
  induction fuel with
  | zero =>
    intro b p j jp d o
    rfl
  | succ f ih =>
    intro b p j jp d o
    cases j
    · simp only [readQNameLoop, dbind_get, dbind_get_range, if_false, Bool.false_eq_true]
      split
      · rfl
      split
      · rfl
      split
      · split
        · rfl
        · exact ih _ _ _ _ _ _
      · split
        · rfl
        · split
          · rfl
          · exact ih _ _ _ _ _ _
    · simp only [readQNameLoop, dbind_get, dbind_get_range, if_true]
      split
      · rfl
      split
      · rfl
      split
      · split
        · rfl
        · exact ih _ _ _ _ _ _
      · split
        · rfl
        · split
          · rfl
          · exact ih _ _ _ _ _ _

/-- If the name at `p` starts with enough consecutive pointers to push the
jump counter from `jp` past the limit (i.e. to 6), the loop fails with the
jump-limit error. -/
theorem chain_fail :
    ∀ (k fuel : Nat) (b : BytePacketBuffer) (p : Nat) (j : Bool) (jp : Nat) (d o : String),
    jp + k = 6 → k + 1 ≤ fuel → isPtrChain b.buffer p k →
    (readQNameLoop fuel b p j jp d o).1 = Except.error DnsError.jumpLimitExceeded := by
  intro k
  induction k with
  | zero =>
    intro fuel b p j jp d o hjp hf hch
    obtain ⟨f, rfl⟩ : ∃ f, fuel = f + 1 := ⟨fuel - 1, by omega⟩
    simp only [readQNameLoop]
    rw [if_pos (show jp > 5 by omega)]
  | succ k ih =>
    intro fuel b p j jp d o hjp hf hch
    obtain ⟨f, rfl⟩ : ∃ f, fuel = f + 1 := ⟨fuel - 1, by omega⟩
    have h0 := hch 0 (by omega)
    simp only [chainTarget] at h0
    have hch2 : isPtrChain b.buffer (ptrTarget b.buffer p) k := by
      intro i hi
      have := hch (i + 1) (by omega)
      simpa [chainTarget] using this
    have hB : (if j then b else (b.seek (p + 2)).2).buffer = b.buffer := by
      cases j <;> rfl
    simp only [readQNameLoop, dbind_get]
    rw [if_neg (show ¬ jp > 5 by omega)]
    rw [if_neg (show ¬ 512 ≤ p by omega)]
    rw [if_pos h0.2]
    rw [if_neg (show ¬ 512 ≤ p + 1 by omega)]
    rw [hB]
    exact ih f _ (ptrTarget b.buffer p) true (jp + 1) d o (by omega) (by omega)
      (by rw [hB]; exact hch2)

/-- With `jumped` already true, following `k` further chained pointers only
moves the working position to the chain target and adds `k` to the counter. -/
theorem chain_cont :
    ∀ (k fuel : Nat) (b : BytePacketBuffer) (p jp : Nat) (d o : String),
    jp + k ≤ 6 → isPtrChain b.buffer p k →
    readQNameLoop (fuel + k) b p true jp d o =
      readQNameLoop fuel b (chainTarget b.buffer p k) true (jp + k) d o := by
  intro k
  induction k with
  | zero =>
    intro fuel b p jp d o hle hch
    simp [chainTarget]
  | succ k ih =>
    intro fuel b p jp d o hle hch
    have h0 := hch 0 (by omega)
    simp only [chainTarget] at h0
    have hch2 : isPtrChain b.buffer (ptrTarget b.buffer p) k := by
      intro i hi
      have := hch (i + 1) (by omega)
      simpa [chainTarget] using this
    have step : readQNameLoop ((fuel + k) + 1) b p true jp d o
        = readQNameLoop (fuel + k) b (ptrTarget b.buffer p) true (jp + 1) d o := by
      simp only [readQNameLoop, dbind_get]
      rw [if_neg (show ¬ jp > 5 by omega)]
      rw [if_neg (show ¬ 512 ≤ p by omega)]
      rw [if_pos h0.2]
      rw [if_neg (show ¬ 512 ≤ p + 1 by omega)]
      simp only [if_true]
      rfl
    calc readQNameLoop (fuel + (k + 1)) b p true jp d o
        = readQNameLoop (fuel + k) b (ptrTarget b.buffer p) true (jp + 1) d o := step
      _ = readQNameLoop fuel b (chainTarget b.buffer (ptrTarget b.buffer p) k)
            true ((jp + 1) + k) d o := ih fuel b (ptrTarget b.buffer p) (jp + 1) d o (by omega) hch2
      _ = readQNameLoop fuel b (chainTarget b.buffer p (k + 1)) true (jp + (k + 1)) d o := by
            rw [show chainTarget b.buffer p (k + 1)
                  = chainTarget b.buffer (ptrTarget b.buffer p) k from rfl]
            rw [show (jp + 1) + k = jp + (k + 1) by omega]

/-- Starting fresh (no jump yet, counter 0) on a chain of `k ≥ 1` pointers:
the first jump fixes the real cursor two bytes further, and the loop
continues at the chain target with the counter at `k`. -/
theorem chain_start :
    ∀ (k fuel : Nat) (b : BytePacketBuffer) (d o : String),
    1 ≤ k → k ≤ 6 → isPtrChain b.buffer b.position k →
    readQNameLoop (fuel + k) b b.position false 0 d o =
      readQNameLoop fuel { b with position := b.position + 2 }
        (chainTarget b.buffer b.position k) true k d o := by
  intro k fuel b d o h1 h6 hch
  obtain ⟨n, rfl⟩ : ∃ n, k = n + 1 := ⟨k - 1, by omega⟩
  have h0 := hch 0 (by omega)
  simp only [chainTarget] at h0
  have hch2 : isPtrChain b.buffer (ptrTarget b.buffer b.position) n := by
    intro i hi
    have := hch (i + 1) (by omega)
    simpa [chainTarget] using this
  have step : readQNameLoop ((fuel + n) + 1) b b.position false 0 d o
      = readQNameLoop (fuel + n) { b with position := b.position + 2 }
          (ptrTarget b.buffer b.position) true 1 d o := by
    simp only [readQNameLoop, dbind_get]
    rw [if_neg (show ¬ (0 : Nat) > 5 by omega)]
    rw [if_neg (show ¬ 512 ≤ b.position by omega)]
    rw [if_pos h0.2]
    rw [if_neg (show ¬ 512 ≤ b.position + 1 by omega)]
    rfl
  calc readQNameLoop (fuel + (n + 1)) b b.position false 0 d o
      = readQNameLoop (fuel + n) { b with position := b.position + 2 }
          (ptrTarget b.buffer b.position) true 1 d o := step
    _ = readQNameLoop fuel { b with position := b.position + 2 }
          (chainTarget b.buffer (ptrTarget b.buffer b.position) n) true (1 + n) d o :=
        chain_cont n fuel _ (ptrTarget b.buffer b.position) 1 d o (by omega) hch2
    _ = readQNameLoop fuel { b with position := b.position + 2 }
          (chainTarget b.buffer b.position (n + 1)) true (n + 1) d o := by
        rw [show chainTarget b.buffer b.position (n + 1)
              = chainTarget b.buffer (ptrTarget b.buffer b.position) n from rfl]
        rw [show 1 + n = n + 1 by omega]

/-!  Lengths of the record/question sequences. -/

theorem readQuestions_length :
    ∀ (n : Nat) (b : BytePacketBuffer) (l : List DnsQuestion) (b2 : BytePacketBuffer),
    readQuestions n b = (Except.ok l, b2) → l.length = n := by
  intro n
  induction n with
  | zero =>
    intro b l b2 h
    simp only [readQuestions] at h
    cases h
    rfl
  | succ n ih =>
    intro b l b2 h
    simp only [readQuestions] at h
    rcases hq : (DnsQuestion.new "" (QueryType.UNKNOWN 0)).read b with ⟨r, b1⟩
    rw [hq] at h
    cases r with
    | error e => simp [dbind] at h
    | ok q =>
      rw [dbind_ok] at h
      rcases hrest : readQuestions n b1 with ⟨r2, b3⟩
      rw [hrest] at h
      cases r2 with
      | error e => simp [dbind] at h
      | ok qs =>
        rw [dbind_ok] at h
        cases h
        have hn := ih b1 qs _ hrest
        simp [hn]

theorem readRecords_length :
    ∀ (n : Nat) (b : BytePacketBuffer) (l : List DnsRecord) (b2 : BytePacketBuffer),
    readRecords n b = (Except.ok l, b2) → l.length = n := by
  intro n
  induction n with
  | zero =>
    intro b l b2 h
    simp only [readRecords] at h
    cases h
    rfl
  | succ n ih =>
    intro b l b2 h
    simp only [readRecords] at h
    rcases hq : DnsRecord.read b with ⟨r, b1⟩
    rw [hq] at h
    cases r with
    | error e => simp [dbind] at h
    | ok q =>
      rw [dbind_ok] at h
      rcases hrest : readRecords n b1 with ⟨r2, b3⟩
      rw [hrest] at h
      cases r2 with
      | error e => simp [dbind] at h
      | ok qs =>
        rw [dbind_ok] at h
        cases h
        have hn := ih b1 qs _ hrest
        simp [hn]

/-!  The frame property: no decode operation writes the buffer bytes. -/

theorem dbind_buffer {α β : Type} (x : Except DnsError α × BytePacketBuffer)
    (f : α → BytePacketBuffer → Except DnsError β × BytePacketBuffer) (B : List Nat)
    (hx : x.2.buffer = B) (hf : ∀ a b, b.buffer = B → (f a b).2.buffer = B) :
    (dbind x f).2.buffer = B := by
  rcases x with ⟨r, bx⟩
  cases r with
  | error e => exact hx
  | ok a => exact hf a bx hx

theorem read_buffer (b : BytePacketBuffer) : b.read.2.buffer = b.buffer := by
  unfold BytePacketBuffer.read
  split <;> rfl

theorem read_u16_buffer (b : BytePacketBuffer) : b.read_u16.2.buffer = b.buffer := by
  unfold BytePacketBuffer.read_u16
  apply dbind_buffer _ _ _ (read_buffer b)
  intro a b1 hb1
  apply dbind_buffer _ _ _ (by rw [read_buffer]; exact hb1)
  intro a2 b2 hb2
  exact hb2

theorem read_u32_buffer (b : BytePacketBuffer) : b.read_u32.2.buffer = b.buffer := by
  unfold BytePacketBuffer.read_u32
  apply dbind_buffer _ _ _ (read_buffer b)
  intro a b1 hb1
  apply dbind_buffer _ _ _ (by rw [read_buffer]; exact hb1)
  intro a2 b2 hb2
  apply dbind_buffer _ _ _ (by rw [read_buffer]; exact hb2)
  intro a3 b3 hb3
  apply dbind_buffer _ _ _ (by rw [read_buffer]; exact hb3)
  intro a4 b4 hb4
  exact hb4

theorem read_q_name_buffer (b : BytePacketBuffer) (o : String) :
    (b.read_q_name o).2.buffer = b.buffer := by
  unfold BytePacketBuffer.read_q_name
  exact qname_loop_buffer qnameFuel b b.position false 0 "" o

theorem header_read_buffer (h : DnsHeader) (b : BytePacketBuffer) :
    (DnsHeader.read h b).2.buffer = b.buffer := by
  unfold DnsHeader.read
  apply dbind_buffer _ _ _ (read_u16_buffer b)
  intro a1 b1 hb1
  apply dbind_buffer _ _ _ (by rw [read_u16_buffer]; exact hb1)
  intro a2 b2 hb2
  apply dbind_buffer _ _ _ (by rw [read_u16_buffer]; exact hb2)
  intro a3 b3 hb3
  apply dbind_buffer _ _ _ (by rw [read_u16_buffer]; exact hb3)
  intro a4 b4 hb4
  apply dbind_buffer _ _ _ (by rw [read_u16_buffer]; exact hb4)
  intro a5 b5 hb5
  apply dbind_buffer _ _ _ (by rw [read_u16_buffer]; exact hb5)
  intro a6 b6 hb6
  exact hb6

theorem question_read_buffer (q : DnsQuestion) (b : BytePacketBuffer) :
    (DnsQuestion.read q b).2.buffer = b.buffer := by
  unfold DnsQuestion.read
  apply dbind_buffer _ _ _ (read_q_name_buffer b q.name)
  intro a1 b1 hb1
  apply dbind_buffer _ _ _ (by rw [read_u16_buffer]; exact hb1)
  intro a2 b2 hb2
  apply dbind_buffer _ _ _ (by rw [read_u16_buffer]; exact hb2)
  intro a3 b3 hb3
  exact hb3

theorem record_read_buffer (b : BytePacketBuffer) :
    (DnsRecord.read b).2.buffer = b.buffer := by
  unfold DnsRecord.read
  apply dbind_buffer _ _ _ (read_u16_buffer b)
  intro a1 b1 hb1
  apply dbind_buffer _ _ _ (by rw [read_u16_buffer]; exact hb1)
  intro a2 b2 hb2
  apply dbind_buffer _ _ _ (by rw [read_u32_buffer]; exact hb2)
  intro a3 b3 hb3
  apply dbind_buffer _ _ _ (by rw [read_u16_buffer]; exact hb3)
  intro a4 b4 hb4
  cases QueryType.from_num a1 with
  | A =>
    apply dbind_buffer _ _ _ (by rw [read_u32_buffer]; exact hb4)
    intro a5 b5 hb5
    exact hb5
  | UNKNOWN x =>
    apply dbind_buffer _ _ _ (by exact hb4)
    intro a5 b5 hb5
    exact hb5

theorem readQuestions_buffer :
    ∀ (n : Nat) (b : BytePacketBuffer), (readQuestions n b).2.buffer = b.buffer := by
  intro n
  induction n with
  | zero => intro b; rfl
  | succ n ih =>
    intro b
    simp only [readQuestions]
    apply dbind_buffer _ _ _ (question_read_buffer _ b)
    intro a1 b1 hb1
    apply dbind_buffer _ _ _ (by rw [ih]; exact hb1)
    intro a2 b2 hb2
    exact hb2

theorem readRecords_buffer :
    ∀ (n : Nat) (b : BytePacketBuffer), (readRecords n b).2.buffer = b.buffer := by
  intro n
  induction n with
  | zero => intro b; rfl
  | succ n ih =>
    intro b
    simp only [readRecords]
    apply dbind_buffer _ _ _ (record_read_buffer b)
    intro a1 b1 hb1
    apply dbind_buffer _ _ _ (by rw [ih]; exact hb1)
    intro a2 b2 hb2
    exact hb2

theorem from_buffer_buffer (b : BytePacketBuffer) :
    (DnsPacket.from_buffer b).2.buffer = b.buffer := by
  unfold DnsPacket.from_buffer
  apply dbind_buffer _ _ _ (header_read_buffer DnsHeader.new b)
  intro a1 b1 hb1
  apply dbind_buffer _ _ _ (by rw [readQuestions_buffer]; exact hb1)
  intro a2 b2 hb2
  apply dbind_buffer _ _ _ (by rw [readRecords_buffer]; exact hb2)
  intro a3 b3 hb3
  apply dbind_buffer _ _ _ (by rw [readRecords_buffer]; exact hb3)
  intro a4 b4 hb4
  apply dbind_buffer _ _ _ (by rw [readRecords_buffer]; exact hb4)
  intro a5 b5 hb5
  exact hb5

/-!  Claim theorems. -/

/-- C5: `get_range` fails with the out-of-bounds error exactly when
`start + length >= 512` — so a range ending exactly at capacity is rejected —
and otherwise returns the `length` bytes starting at `start` without moving
the read position (or touching the buffer at all). -/
theorem c5_get_range_bounds (b : BytePacketBuffer) (s l : Nat) :
    (512 ≤ s + l →
      b.get_range s l = (Except.error DnsError.endOfBufferExceeded, b)) ∧
    (s + l < 512 →
      b.get_range s l = (Except.ok ((b.buffer.drop s).take l), b)) := by
  constructor
  · intro h
    unfold BytePacketBuffer.get_range
    rw [if_pos h]
  · intro h
    unfold BytePacketBuffer.get_range
    rw [if_neg (by omega)]

set_option maxRecDepth 100000 in
set_option maxHeartbeats 1000000 in
/-- Witness for C5: the range 500..512 ends exactly at capacity and is
rejected, while a small in-bounds range returns its bytes with the position
untouched. -/
theorem c5_get_range_bounds_witness :
    (⟨rngBuf, 0⟩ : BytePacketBuffer).get_range 500 12
        = (Except.error DnsError.endOfBufferExceeded, ⟨rngBuf, 0⟩) ∧
    (⟨rngBuf, 0⟩ : BytePacketBuffer).get_range 1 2
        = (Except.ok [20, 30], ⟨rngBuf, 0⟩) := by
  constructor
  · exact (c5_get_range_bounds ⟨rngBuf, 0⟩ 500 12).1 (by omega)
  · have h := (c5_get_range_bounds ⟨rngBuf, 0⟩ 1 2).2 (by omega)
    rw [h]
    decide

/-- C6: `DnsRecord::read` on an unrecognized type code returns the UNKNOWN
variant retaining the raw code, the declared data length and the TTL, and
advances the cursor by exactly the data length past the record-data start;
the skip uses `step`, which never fails, so the whole decode succeeds for
any declared length. -/
theorem c6_unknown_record_skip (b b1 b2 b3 b4 : BytePacketBuffer)
    (q c ttl L : Nat)
    (hq : b.read_u16 = (Except.ok q, b1)) (hq1 : q ≠ 1)
    (hc : b1.read_u16 = (Except.ok c, b2))
    (httl : b2.read_u32 = (Except.ok ttl, b3))
    (hL : b3.read_u16 = (Except.ok L, b4)) :
    DnsRecord.read b =
      (Except.ok (DnsRecord.UNKNOWN "" q L ttl),
       { b4 with position := b4.position + L }) := by
  unfold DnsRecord.read
  rw [hq, dbind_ok, hc, dbind_ok, httl, dbind_ok, hL, dbind_ok]
  have hfq : QueryType.from_num q = QueryType.UNKNOWN q := by
    unfold QueryType.from_num
    split
    · exact absurd rfl hq1
    · rfl
  rw [hfq]
  rfl

set_option maxRecDepth 100000 in
set_option maxHeartbeats 1000000 in
/-- Witness for C6: type code 28 (AAAA, unsupported) with data length 5 at
offset 0 of `unkBuf`: the record decodes to the UNKNOWN variant and the
cursor lands at 10 + 5 = 15. -/
theorem c6_unknown_record_skip_witness :
    DnsRecord.read ⟨unkBuf, 0⟩
      = (Except.ok (DnsRecord.UNKNOWN "" 28 5 300), ⟨unkBuf, 15⟩) := by
  have h := c6_unknown_record_skip ⟨unkBuf, 0⟩ ⟨unkBuf, 2⟩ ⟨unkBuf, 4⟩
    ⟨unkBuf, 8⟩ ⟨unkBuf, 10⟩ 28 1 300 5 (by decide) (by decide) (by decide)
    (by decide) (by decide)
  rw [h]

/-- C7: the Query Type conversions round-trip: the named variant A maps to
its code and back to itself, and any code that maps to the UNKNOWN fallback
maps back to the same code. -/
theorem c7_querytype_roundtrip :
    QueryType.from_num (QueryType.to_num QueryType.A) = QueryType.A ∧
    (∀ c : Nat, QueryType.from_num c = QueryType.UNKNOWN c →
      QueryType.to_num (QueryType.from_num c) = c) := by
  constructor
  · rfl
  · intro c h
    rw [h]
    rfl

/-- Witness for C7: code 28 maps to the fallback and back to 28. -/
theorem c7_querytype_roundtrip_witness :
    QueryType.from_num 28 = QueryType.UNKNOWN 28 ∧
    QueryType.to_num (QueryType.from_num 28) = 28 :=
  ⟨by decide, c7_querytype_roundtrip.2 28 (by decide)⟩

/-- C8: the Result-Code mapping sends 0..5 to the six named codes and every
other 4-bit value (6..15) to NOERROR rather than failing, and the header
decoder applies this mapping to the low nibble of the second flags byte. -/
theorem c8_result_code_mapping :
    ResultCode.from_num 0 = ResultCode.NOERROR ∧
    ResultCode.from_num 1 = ResultCode.FORMERR ∧
    ResultCode.from_num 2 = ResultCode.SERVFAIL ∧
    ResultCode.from_num 3 = ResultCode.NXDOMAIN ∧
    ResultCode.from_num 4 = ResultCode.NOTIMP ∧
    ResultCode.from_num 5 = ResultCode.REFUSED ∧
    (∀ n : Nat, 6 ≤ n → n ≤ 15 → ResultCode.from_num n = ResultCode.NOERROR) ∧
    (∀ (h : DnsHeader) (b b2 : BytePacketBuffer) (flags : Nat) (hd : DnsHeader),
      b.read_u16.2.read_u16 = (Except.ok flags, b2) →
      (DnsHeader.read h b).1 = Except.ok hd →
      hd.result_code = ResultCode.from_num ((flags &&& 0xFF) &&& 0x0F)) := by
  refine ⟨rfl, rfl, rfl, rfl, rfl, rfl, ?_, ?_⟩
  · intro n h6 h15
    interval_cases n <;> rfl
  · intro h b b2 flags hd hflags hread
    unfold DnsHeader.read at hread
    rcases h1 : b.read_u16 with ⟨r1, b1⟩
    rw [h1] at hread hflags
    cases r1 with
    | error e => simp [dbind] at hread
    | ok idv =>
      rw [dbind_ok] at hread
      have hflags2 : b1.read_u16 = (Except.ok flags, b2) := hflags
      rw [hflags2, dbind_ok] at hread
      rcases h3 : b2.read_u16 with ⟨r3, b3⟩
      rw [h3] at hread
      cases r3 with
      | error e => simp [dbind] at hread
      | ok v3 =>
        rw [dbind_ok] at hread
        rcases h4 : b3.read_u16 with ⟨r4, b4⟩
        rw [h4] at hread
        cases r4 with
        | error e => simp [dbind] at hread
        | ok v4 =>
          rw [dbind_ok] at hread
          rcases h5 : b4.read_u16 with ⟨r5, b5⟩
          rw [h5] at hread
          cases r5 with
          | error e => simp [dbind] at hread
          | ok v5 =>
            rw [dbind_ok] at hread
            rcases h6 : b5.read_u16 with ⟨r6, b6⟩
            rw [h6] at hread
            cases r6 with
            | error e => simp [dbind] at hread
            | ok v6 =>
              rw [dbind_ok] at hread
              injection hread with hh
              rw [← hh]

set_option maxRecDepth 100000 in
set_option maxHeartbeats 1000000 in
/-- Witness for C8: value 9 maps to NOERROR, and decoding `hdrBuf` (flags
word 0x0005, low nibble 5) yields a header whose result code is the mapping
of that nibble (REFUSED). -/
theorem c8_result_code_mapping_witness :
    ResultCode.from_num 9 = ResultCode.NOERROR ∧
    hdrBufHeader.result_code = ResultCode.from_num ((5 &&& 0xFF) &&& 0x0F) :=
  ⟨c8_result_code_mapping.2.2.2.2.2.2.1 9 (by omega) (by omega),
   c8_result_code_mapping.2.2.2.2.2.2.2 DnsHeader.new ⟨hdrBuf, 0⟩ ⟨hdrBuf, 4⟩ 5
     hdrBufHeader (by decide) (by decide)⟩

/-- C9: whenever the full message decode succeeds, the four decoded
sequences have exactly the lengths declared by the four header counts (the
decode itself proceeds header-first, then questions, answers, authorities
and additional records, in the order fixed by `DnsPacket.from_buffer`). -/
theorem c9_counts_match (b b2 : BytePacketBuffer) (p : DnsPacket)
    (h : DnsPacket.from_buffer b = (Except.ok p, b2)) :
    p.questions.length = p.header.questions ∧
    p.answers.length = p.header.answers ∧
    p.authorities.length = p.header.authoritative_entries ∧
    p.resources.length = p.header.resource_entries := by
  unfold DnsPacket.from_buffer at h
  rcases h1 : DnsHeader.read DnsHeader.new b with ⟨r1, b1⟩
  rw [h1] at h
  cases r1 with
  | error e => simp [dbind] at h
  | ok hdr =>
    rw [dbind_ok] at h
    rcases h2 : readQuestions hdr.questions b1 with ⟨r2, bq⟩
    rw [h2] at h
    cases r2 with
    | error e => simp [dbind] at h
    | ok qs =>
      rw [dbind_ok] at h
      rcases h3 : readRecords hdr.answers bq with ⟨r3, ba⟩
      rw [h3] at h
      cases r3 with
      | error e => simp [dbind] at h
      | ok ans =>
        rw [dbind_ok] at h
        rcases h4 : readRecords hdr.authoritative_entries ba with ⟨r4, bu⟩
        rw [h4] at h
        cases r4 with
        | error e => simp [dbind] at h
        | ok auth =>
          rw [dbind_ok] at h
          rcases h5 : readRecords hdr.resource_entries bu with ⟨r5, br⟩
          rw [h5] at h
          cases r5 with
          | error e => simp [dbind] at h
          | ok res =>
            rw [dbind_ok] at h
            injection h with hL hR
            injection hL with hp
            rw [← hp]
            exact ⟨readQuestions_length _ _ _ _ h2, readRecords_length _ _ _ _ h3,
              readRecords_length _ _ _ _ h4, readRecords_length _ _ _ _ h5⟩

set_option maxRecDepth 100000 in
set_option maxHeartbeats 4000000 in
/-- Witness for C9: the concrete message `pktBytes` decodes successfully and
its question/answer/authority/additional counts (1/1/0/0) match the decoded
sequence lengths. -/
theorem c9_counts_match_witness :
    pktDecoded.questions.length = pktDecoded.header.questions ∧
    pktDecoded.answers.length = pktDecoded.header.answers ∧
    pktDecoded.authorities.length = pktDecoded.header.authoritative_entries ∧
    pktDecoded.resources.length = pktDecoded.header.resource_entries :=
  c9_counts_match ⟨pktBytes, 0⟩ ⟨pktBytes, 332⟩ pktDecoded (by decide)

/-- C10: no decode operation writes the buffer bytes: whether the operation
succeeds or fails, the resulting state carries the same 512-byte array, only
the read position differs. -/
theorem c10_decode_preserves_buffer :
    (∀ (b : BytePacketBuffer) (n : Nat), (b.step n).2.buffer = b.buffer) ∧
    (∀ (b : BytePacketBuffer) (p : Nat), (b.seek p).2.buffer = b.buffer) ∧
    (∀ b : BytePacketBuffer, b.read.2.buffer = b.buffer) ∧
    (∀ (b : BytePacketBuffer) (p : Nat), (b.get p).2.buffer = b.buffer) ∧
    (∀ (b : BytePacketBuffer) (s l : Nat), (b.get_range s l).2.buffer = b.buffer) ∧
    (∀ b : BytePacketBuffer, b.read_u16.2.buffer = b.buffer) ∧
    (∀ b : BytePacketBuffer, b.read_u32.2.buffer = b.buffer) ∧
    (∀ (b : BytePacketBuffer) (o : String), (b.read_q_name o).2.buffer = b.buffer) ∧
    (∀ (h : DnsHeader) (b : BytePacketBuffer), (DnsHeader.read h b).2.buffer = b.buffer) ∧
    (∀ (q : DnsQuestion) (b : BytePacketBuffer), (DnsQuestion.read q b).2.buffer = b.buffer) ∧
    (∀ b : BytePacketBuffer, (DnsRecord.read b).2.buffer = b.buffer) ∧
    (∀ b : BytePacketBuffer, (DnsPacket.from_buffer b).2.buffer = b.buffer) :=
  ⟨fun _ _ => rfl, fun _ _ => rfl, read_buffer, fun _ _ => rfl, fun _ _ _ => rfl,
   read_u16_buffer, read_u32_buffer, read_q_name_buffer, header_read_buffer,
   question_read_buffer, record_read_buffer, from_buffer_buffer⟩

set_option maxRecDepth 100000 in
set_option maxHeartbeats 4000000 in
/-- C1 (refuting theorem): decoding the end-to-end message `pktBytes`
(question for the compressed name "g.co", answer reusing that name through a
pointer) succeeds, but the domain text of the single answer is "" while that of the single
question is "g.co" — `DnsRecord::read` never invokes the domain-name
reader, so the claim that question and answer report identical text fails. -/
theorem c1_record_read_omits_domain :
    (DnsPacket.from_buffer ⟨pktBytes, 0⟩).1 = Except.ok pktDecoded ∧
    pktDecoded.questions.map DnsQuestion.name = ["g.co"] ∧
    pktDecoded.answers.map DnsRecord.domain = [""] ∧
    pktDecoded.answers.map DnsRecord.domain ≠ pktDecoded.questions.map DnsQuestion.name :=
  ⟨by decide, by decide, by decide, by decide⟩

/-- C3: on a pointer-free sequence of length-prefixed labels terminated by a
zero byte and lying inside the 512-byte buffer, `read_q_name` succeeds with
the lowercased labels joined by a dot, and the real cursor ends exactly one
byte past the terminating zero. -/
theorem c3_plain_labels_decode (labels : List (List Nat)) (b : BytePacketBuffer)
    (hlen : b.buffer.length = 512) (hval : validLabels labels)
    (hcont : containsAt b.buffer b.position (encodeLabels labels))
    (hbound : b.position + (encodeLabels labels).length ≤ 512) :
    b.read_q_name "" =
      (Except.ok (dotJoinedLower labels),
       { b with position := b.position + (encodeLabels labels).length }) := by
  unfold BytePacketBuffer.read_q_name
  have hfuel : labels.length + 1 ≤ qnameFuel := by
    have h1 := length_le_encodeLabels labels
    unfold qnameFuel
    omega
  rw [qname_labels_loop labels qnameFuel b b.position false 0 "" ""
      hlen (by omega) hfuel hval hcont hbound]
  rw [appendLabels_empty]
  rfl

set_option maxRecDepth 100000 in
set_option maxHeartbeats 1000000 in
/-- Witness for C3: the single label "Ab" (0x41 0x62) at offset 0 of
`labBuf` decodes to "ab" with the cursor at 4 (one past the zero byte). -/
theorem c3_plain_labels_decode_witness :
    (⟨labBuf, 0⟩ : BytePacketBuffer).read_q_name ""
      = (Except.ok "ab", ⟨labBuf, 4⟩) := by
  have h := c3_plain_labels_decode [[0x41, 0x62]] ⟨labBuf, 0⟩
    (by decide) (by decide) (by decide) (by decide)
  rw [h]
  decide

/-- C4: a name made of six chained compression pointers exceeds the fixed
limit of 5 jumps and fails with the jump-limit error, while a chain of
exactly 5 pointers that then reaches a valid label sequence succeeds
(returning the joined labels, with the cursor just past the first pointer). -/
theorem c4_jump_limit_boundary :
    (∀ (b : BytePacketBuffer) (o : String),
      isPtrChain b.buffer b.position 6 →
      (b.read_q_name o).1 = Except.error DnsError.jumpLimitExceeded) ∧
    (∀ (b : BytePacketBuffer) (labels : List (List Nat)),
      b.buffer.length = 512 →
      isPtrChain b.buffer b.position 5 →
      validLabels labels →
      containsAt b.buffer (chainTarget b.buffer b.position 5) (encodeLabels labels) →
      chainTarget b.buffer b.position 5 + (encodeLabels labels).length ≤ 512 →
      b.read_q_name "" =
        (Except.ok (dotJoinedLower labels), { b with position := b.position + 2 })) := by
  constructor
  · intro b o hch
    unfold BytePacketBuffer.read_q_name
    exact chain_fail 6 qnameFuel b b.position false 0 "" o (by omega)
      (by unfold qnameFuel; omega) hch
  · intro b labels hlen hch hval hcont hbound
    unfold BytePacketBuffer.read_q_name
    rw [show qnameFuel = 2043 + 5 from rfl]
    rw [chain_start 5 2043 b "" "" (by omega) (by omega) hch]
    have hfuel : labels.length + 1 ≤ 2043 := by
      have h1 := length_le_encodeLabels labels
      omega
    rw [qname_labels_loop labels 2043 { b with position := b.position + 2 }
        (chainTarget b.buffer b.position 5) true 5 "" ""
        hlen (by omega) hfuel hval hcont hbound]
    rw [appendLabels_empty]
    rfl

set_option maxRecDepth 100000 in
set_option maxHeartbeats 4000000 in
/-- Witness for C4: in `chainBuf`, decoding at offset 0 follows 6 pointers
and fails with the jump-limit error, while decoding at offset 12 follows
exactly 5 pointers, reaches the label "g", and succeeds. -/
theorem c4_jump_limit_boundary_witness :
    ((⟨chainBuf, 0⟩ : BytePacketBuffer).read_q_name "").1
        = Except.error DnsError.jumpLimitExceeded ∧
    (⟨chainBuf, 12⟩ : BytePacketBuffer).read_q_name ""
        = (Except.ok "g", ⟨chainBuf, 14⟩) := by
  constructor
  · exact c4_jump_limit_boundary.1 ⟨chainBuf, 0⟩ "" (by decide)
  · have h := c4_jump_limit_boundary.2 ⟨chainBuf, 12⟩ [[0x67]]
      (by decide) (by decide) (by decide) (by decide) (by decide)
    rw [h]
    decide

set_option maxRecDepth 100000 in
set_option maxHeartbeats 4000000 in
/-- C2 counterexample: in `chainBuf` the name at offset 0 consists solely of
a two-byte pointer to offset 12, an earlier, already-valid name occurrence
(decoding directly at 12 succeeds, yielding "g").  Yet `read_q_name` at 0
does not return that text: it fails with the jump-limit error, because the
pointed-to occurrence itself uses all five allowed jumps and the extra
pointer makes six. -/
theorem c2_pointer_jump_budget_cex :
    chainBuf.getD 0 0 &&& 0xC0 = 0xC0 ∧
    ptrTarget chainBuf 0 = 12 ∧
    ((⟨chainBuf, 12⟩ : BytePacketBuffer).read_q_name "").1 = Except.ok "g" ∧
    ((⟨chainBuf, 0⟩ : BytePacketBuffer).read_q_name "").1
        = Except.error DnsError.jumpLimitExceeded :=
  ⟨by decide, by decide, by decide, by decide⟩

/-- C2 (amended): if the name at the current position consists solely of a
two-byte compression pointer to an earlier, already-valid name occurrence,
and that occurrence still decodes to the same text with one jump already
counted against the limit (i.e. it needs at most 4 of the 5 allowed jumps),
then `read_q_name` returns exactly the text obtained by decoding directly at
the pointed-to offset, and the real cursor ends at the starting position
plus exactly 2 — not past the pointed-to data. -/
theorem c2_pointer_name_roundtrip (b : BytePacketBuffer) (o t : String)
    (bx : BytePacketBuffer)
    (hb : b.position + 1 < 512)
    (hp : b.buffer.getD b.position 0 &&& 0xC0 = 0xC0)
    (hok : readQNameLoop (qnameFuel - 1) b (ptrTarget b.buffer b.position) false 1 "" o
        = (Except.ok t, bx)) :
    b.read_q_name o = (Except.ok t, { b with position := b.position + 2 }) ∧
    (({ b with position := ptrTarget b.buffer b.position } : BytePacketBuffer).read_q_name o).1
        = Except.ok t := by
  have hch : isPtrChain b.buffer b.position 1 := by
    intro i hi
    have hi0 : i = 0 := by omega
    subst hi0
    exact ⟨hb, hp⟩
  constructor
  · unfold BytePacketBuffer.read_q_name
    rw [show qnameFuel = (qnameFuel - 1) + 1 from rfl]
    rw [chain_start 1 (qnameFuel - 1) b "" o (by omega) (by omega) hch]
    have h1 : (readQNameLoop (qnameFuel - 1) { b with position := b.position + 2 }
        (chainTarget b.buffer b.position 1) true 1 "" o).1 = Except.ok t := by
      exact qname_loop_congr (qnameFuel - 1) (qnameFuel - 1) b
        { b with position := b.position + 2 } (ptrTarget b.buffer b.position)
        false true 1 1 "" o t rfl (le_refl _) (le_refl _) (by rw [hok])
    have h2 := qname_loop_jumped_state (qnameFuel - 1)
      { b with position := b.position + 2 } (chainTarget b.buffer b.position 1) 1 "" o
    rw [Prod.ext_iff]
    exact ⟨h1, h2⟩
  · show (readQNameLoop qnameFuel { b with position := ptrTarget b.buffer b.position }
        (ptrTarget b.buffer b.position) false 0 "" o).1 = Except.ok t
    exact qname_loop_congr (qnameFuel - 1) qnameFuel b
      { b with position := ptrTarget b.buffer b.position }
      (ptrTarget b.buffer b.position) false false 1 0 "" o t rfl
      (by unfold qnameFuel; omega) (by omega) (by rw [hok])

set_option maxRecDepth 100000 in
set_option maxHeartbeats 4000000 in
/-- Witness for C2: in `ptrBuf` the pointer at offset 0 targets the plain
name "g" at offset 12; decoding at 0 yields "g" with the cursor at 2, and
decoding directly at 12 yields the same text. -/
theorem c2_pointer_name_roundtrip_witness :
    (⟨ptrBuf, 0⟩ : BytePacketBuffer).read_q_name "" = (Except.ok "g", ⟨ptrBuf, 2⟩) ∧
    ((⟨ptrBuf, 12⟩ : BytePacketBuffer).read_q_name "").1 = Except.ok "g" := by
  have h := c2_pointer_name_roundtrip ⟨ptrBuf, 0⟩ "" "g" ⟨ptrBuf, 15⟩
    (by decide) (by decide) (by decide)
  constructor
  · have h1 := h.1
    rw [h1]
  · exact h.2
